import Mathlib

/-!
Verification of the news curation-and-delivery pipeline (app.py,
telegram_bot.py, news_scheduler.py): a shallow embedding of the SQLite
news store, the AI-provider retry/fallback logic, the tolerant JSON
response extraction, and the scheduled Telegram delivery path, together
with proofs of the specified properties.
-/

namespace NewsApp

/-! ## Python values

A minimal model of the Python values flowing through the pipeline:
JSON-decoded structures (lists, dicts, strings, booleans, integers).
-/

inductive PyVal where
  | list (xs : List PyVal)
  | dict (kvs : List (String × PyVal))
  | str (s : String)
  | bool (b : Bool)
  | int (n : Int)

/-- Model of Python `d[k]` / `k in d` on a dict value: the value bound to
key `k`, if any. -/
def dictGet (v : PyVal) (k : String) : Option PyVal :=
  match v with
  | .dict kvs => kvs.lookup k
  | _ => none

/-! ## SQLite TEXT ordering

SQLite compares TEXT columns bytewise (BINARY collation); for the ASCII
date strings stored by the app this is lexicographic comparison on
characters. -/

/-- Bytewise (lexicographic) strict comparison of two character lists,
modelling SQLite BINARY collation on TEXT. -/
def charListLt : List Char → List Char → Bool
  | [], [] => false
  | [], _ :: _ => true
  | _ :: _, [] => false
  | a :: s, b :: t => if a < b then true else if b < a then false else charListLt s t

theorem charListLt_irrefl : ∀ s, charListLt s s = false := by
  intro s
  induction s with
  | nil => rfl
  | cons a t ih => simp [charListLt, ih]

theorem charListLt_trans : ∀ s t u, charListLt s t = true → charListLt t u = true →
    charListLt s u = true := by
  intro s
  induction s with
  | nil =>
    intro t u hst htu
    cases t with
    | nil => exact htu
    | cons b tb =>
      cases u with
      | nil => simp [charListLt] at htu
      | cons c tc => rfl
  | cons a ta ih =>
    intro t u hst htu
    cases t with
    | nil => simp [charListLt] at hst
    | cons b tb =>
      cases u with
      | nil => simp [charListLt] at htu
      | cons c tc =>
        rw [charListLt] at hst htu ⊢
        rcases lt_trichotomy a b with hab | rfl | hab
        · rcases lt_trichotomy b c with hbc | rfl | hbc
          · rw [if_pos (lt_trans hab hbc)]
          · rw [if_pos hab]
          · rw [if_neg (not_lt.mpr (le_of_lt hbc)), if_pos hbc] at htu
            simp at htu
        · rw [if_neg (lt_irrefl a), if_neg (lt_irrefl a)] at hst
          rcases lt_trichotomy a c with hac | rfl | hac
          · rw [if_pos hac]
          · rw [if_neg (lt_irrefl a), if_neg (lt_irrefl a)] at htu ⊢
            exact ih _ _ hst htu
          · rw [if_neg (not_lt.mpr (le_of_lt hac)), if_pos hac] at htu
            simp at htu
        · rw [if_neg (not_lt.mpr (le_of_lt hab)), if_pos hab] at hst
          simp at hst

theorem charListLt_antisymm : ∀ s t, charListLt s t = false → charListLt t s = false →
    s = t := by
  intro s
  induction s with
  | nil =>
    intro t hst _
    cases t with
    | nil => rfl
    | cons b tb => simp [charListLt] at hst
  | cons a ta ih =>
    intro t hst hts
    cases t with
    | nil => simp [charListLt] at hts
    | cons b tb =>
      rw [charListLt] at hst hts
      rcases lt_trichotomy a b with hab | rfl | hab
      · rw [if_pos hab] at hst
        simp at hst
      · rw [if_neg (lt_irrefl a), if_neg (lt_irrefl a)] at hst hts
        rw [ih tb hst hts]
      · rw [if_pos hab] at hts
        simp at hts

/-! ## The news table and the Store (DatabaseManager) -/

/-- One row of the `news` table, as created by `_init_db` plus the
`ALTER TABLE` additions (`is_saved`, `user_note`, `telegram_sent`).
`id` is the `INTEGER PRIMARY KEY AUTOINCREMENT` column; columns whose
inserts can receive Python `None` are `Option`-typed (SQL NULL). -/
structure Row where
  id : Nat
  date : String
  title : Option String
  summary : String
  url : Option String
  category : Option String
  is_saved : Nat
  user_note : String
  telegram_sent : Nat
  deriving DecidableEq, Repr

/-- The persistent news store: the rows of the `news` table plus the next
AUTOINCREMENT id. -/
structure NewsDB where
  rows : List Row
  nextId : Nat
  deriving DecidableEq, Repr

/-- The `url TEXT UNIQUE` invariant as SQLite enforces it: no two distinct
rows carry the same non-NULL url (NULLs never conflict with each other). -/
def UrlsDistinct (rows : List Row) : Prop :=
  rows.Pairwise (fun a b => ∀ u, a.url = some u → b.url ≠ some u)

/-- `DatabaseManager.check_url_exists`: `SELECT 1 FROM news WHERE url=?`
with a string parameter; a NULL url never matches. -/
def check_url_exists (db : NewsDB) (url : String) : Bool :=
  db.rows.any (fun r => r.url == some url)

/-- Whether an item's `link` value (possibly `None`) conflicts with an
existing row, which is exactly when `INSERT OR IGNORE` ignores it. -/
def link_conflicts (db : NewsDB) : Option String → Bool
  | some u => check_url_exists db u
  | none => false

/-- An input item of `save_news_bulk`: one element of the AI-curated list;
`item.get` of an absent key yields Python `None`, hence the `Option`s.
The `summary` value may be a list (joined with newlines) or a string. -/
inductive SummaryField where
  | strF (s : String)
  | listF (xs : List String)
  deriving DecidableEq, Repr

structure NewsItem where
  title : Option String
  summary : Option SummaryField
  link : Option String
  category : Option String
  deriving DecidableEq, Repr

/-- The summary normalisation at the top of the `save_news_bulk` loop:
a list is newline-joined, `None` (and other falsy values) becomes the
empty string, a string stays itself. -/
def summary_text : Option SummaryField → String
  | some (.listF xs) => String.intercalate "\n" xs
  | some (.strF s) => s
  | none => ""

/-- The row built by the VALUES clause of the bulk insert:
`(date, title, summary, url, category, is_saved, user_note)` =
`(today, item title, normalised summary, item link, item category, 0, '')`
with a fresh AUTOINCREMENT id and the default `telegram_sent = 0`. -/
def new_row (today : String) (db : NewsDB) (item : NewsItem) : Row :=
  { id := db.nextId, date := today, title := item.title,
    summary := summary_text item.summary, url := item.link,
    category := item.category, is_saved := 0, user_note := "",
    telegram_sent := 0 }

/-- One `INSERT OR IGNORE INTO news ... VALUES (?, ?, ?, ?, ?, 0, '')`
statement: returns the updated store and whether a row was inserted
(`cursor.rowcount > 0`). -/
def insert_news_item (today : String) (db : NewsDB) (item : NewsItem) : NewsDB × Bool :=
  if link_conflicts db item.link then (db, false)
  else ({ rows := db.rows ++ [new_row today db item], nextId := db.nextId + 1 }, true)

/-- `DatabaseManager.save_news_bulk`: inserts each item with
`INSERT OR IGNORE` and returns the store together with the number of rows
actually inserted (the `count` accumulated from `rowcount > 0`). -/
def save_news_bulk (today : String) (db : NewsDB) : List NewsItem → NewsDB × Nat
  | [] => (db, 0)
  | item :: rest =>
    let step := insert_news_item today db item
    let r := save_news_bulk today step.1 rest
    (r.1, (if step.2 then 1 else 0) + r.2)

/-- Truthiness-plus-"All" handling of the optional query filters:
`if category_filter and category_filter != "All"` adds the condition. -/
def filt_active : Option String → Option String
  | none => none
  | some s => if s = "" then none else if s = "All" then none else some s

/-- The WHERE clause of `get_unsent_news`: `telegram_sent = 0` plus the
active category/date filters. -/
def unsent_matches (category_filter date_filter : Option String) (r : Row) : Bool :=
  r.telegram_sent == 0 &&
  (match filt_active category_filter with
   | none => true
   | some c => r.category == some c) &&
  (match filt_active date_filter with
   | none => true
   | some d => r.date == d)

/-- `ORDER BY date ASC, id ASC`: the non-strict lexicographic order on
the (date, id) key. -/
def rowOrder (a b : Row) : Prop :=
  charListLt a.date.data b.date.data = true ∨ (a.date = b.date ∧ a.id ≤ b.id)

instance : DecidableRel rowOrder := fun _ _ =>
  inferInstanceAs (Decidable (_ ∨ _ ∧ _))

instance : IsTotal Row rowOrder where
  total a b := by
    by_cases h1 : charListLt a.date.data b.date.data = true
    · exact Or.inl (Or.inl h1)
    · by_cases h2 : charListLt b.date.data a.date.data = true
      · exact Or.inr (Or.inl h2)
      · have h1f : charListLt a.date.data b.date.data = false := by
          cases hcl : charListLt a.date.data b.date.data
          · rfl
          · exact absurd hcl h1
        have h2f : charListLt b.date.data a.date.data = false := by
          cases hcl : charListLt b.date.data a.date.data
          · rfl
          · exact absurd hcl h2
        have hd : a.date.data = b.date.data := charListLt_antisymm _ _ h1f h2f
        have hdate : a.date = b.date := by
          cases hda : a.date with
          | mk la =>
            cases hdb : b.date with
            | mk lb =>
              rw [hda, hdb] at hd
              exact congrArg String.mk (by simpa using hd)
        rcases Nat.le_total a.id b.id with h | h
        · exact Or.inl (Or.inr ⟨hdate, h⟩)
        · exact Or.inr (Or.inr ⟨hdate.symm, h⟩)

instance : IsTrans Row rowOrder where
  trans a b c hab hbc := by
    rcases hab with hab | ⟨hab, hab2⟩
    · rcases hbc with hbc | ⟨hbc, _⟩
      · exact Or.inl (charListLt_trans _ _ _ hab hbc)
      · exact Or.inl (hbc ▸ hab)
    · rcases hbc with hbc | ⟨hbc, hbc2⟩
      · exact Or.inl (hab ▸ hbc)
      · exact Or.inr ⟨hab.trans hbc, hab2.trans hbc2⟩

/-- `DatabaseManager.get_unsent_news`: rows with `telegram_sent = 0`
passing the optional category/date filters, `ORDER BY date ASC, id ASC
LIMIT 10`. -/
def get_unsent_news (db : NewsDB) (category_filter date_filter : Option String) : List Row :=
  (List.insertionSort rowOrder
    (db.rows.filter (unsent_matches category_filter date_filter))).take 10

/-- `DatabaseManager.mark_news_as_sent`: `UPDATE news SET telegram_sent = 1
WHERE id = ?` once per id in the list. -/
def mark_news_as_sent (db : NewsDB) (ids : List Nat) : NewsDB :=
  { db with rows := db.rows.map (fun r =>
      if ids.contains r.id then { r with telegram_sent := 1 } else r) }

/-! ## Substring containment (Python `sub in s` / `s.lower()`) -/

/-- Python substring containment `pat in s` on character lists. -/
def sub_of (pat : List Char) : List Char → Bool
  | [] => pat.isEmpty
  | l@(_ :: t) => pat.isPrefixOf l || sub_of pat t

def str_contains (s sub : String) : Bool := sub_of sub.data s.data

/-- Python `s.lower()` (the error signals checked are ASCII). -/
def lower_str (s : String) : String := String.mk (s.data.map Char.toLower)

/-! ## Provider retry with backoff (`_call_*_with_retry`) -/

/-- The rate-limit test in `_call_gemini_with_retry`:
`'429' in error_str or 'RESOURCE_EXHAUSTED' in error_str`. -/
def is_rate_limit_gemini (e : String) : Bool :=
  str_contains e ("429") || str_contains e ("RESOURCE_EXHAUSTED")

/-- The rate-limit test in `_call_groq_with_retry`:
`'429' in error_str or 'rate_limit' in error_str.lower()`. -/
def is_rate_limit_groq (e : String) : Bool :=
  str_contains e ("429") || str_contains (lower_str e) ("rate_limit")

/-- Outcome of one provider request (`generate_content` /
`chat.completions.create`): it returns a response or raises. -/
inductive CallOutcome where
  | ok (text : String)
  | err (e : String)
  deriving DecidableEq, Repr

/-- Result of a whole `_call_*_with_retry` run: the returned response, the
re-raised exception, or the `return None` fallthrough after the loop
(reachable only with `max_retries = 0`). -/
inductive RetryResult where
  | success (text : String)
  | failure (e : String)
  | exhausted
  deriving DecidableEq, Repr

/-- The `for attempt in range(max_retries)` loop shared by the three
retry helpers, instrumented with the number of requests issued and the
list of `time.sleep` durations `2 ** (attempt + 1) + random.uniform(0, 1)`
(the jitter is a parameter; Python's `uniform(0, 1)` lies in `[0, 1)`).
`attempt` is the current loop index, the second argument the remaining
iterations; a rate-limit error sleeps and continues only while
`attempt < max_retries - 1`, every other error is re-raised at once. -/
def retry_go (is_rl : String → Bool) (provider : Nat → CallOutcome) (jitter : Nat → ℚ) :
    Nat → Nat → RetryResult × Nat × List ℚ
  | _, 0 => (.exhausted, 0, [])
  | attempt, r + 1 =>
    match provider attempt with
    | .ok t => (.success t, 1, [])
    | .err e =>
      if is_rl e then
        if r = 0 then (.failure e, 1, [])
        else
          let rest := retry_go is_rl provider jitter (attempt + 1) r
          (rest.1, rest.2.1 + 1, ((2 : ℚ) ^ (attempt + 1) + jitter attempt) :: rest.2.2)
      else (.failure e, 1, [])

/-- `AIAgent._call_gemini_with_retry` with its default `max_retries = 3`. -/
def call_gemini_with_retry (provider : Nat → CallOutcome) (jitter : Nat → ℚ) :
    RetryResult × Nat × List ℚ :=
  retry_go is_rate_limit_gemini provider jitter 0 3

/-- `AIAgent._call_groq_with_retry` with its default `max_retries = 3`. -/
def call_groq_with_retry (provider : Nat → CallOutcome) (jitter : Nat → ℚ) :
    RetryResult × Nat × List ℚ :=
  retry_go is_rate_limit_groq provider jitter 0 3

/-! ## Tolerant JSON extraction (`clean_json_response`)

`json.loads` is an external library routine; it is modelled as a
parameter `loads : String → Option PyVal` (a decode failure is `none`;
`clean_json_response` catches exactly those failures). The two regex
extractions are modelled concretely from the patterns in the source. -/

def backtick : Char := Char.ofNat 96

/-- The literal three-backtick fence. -/
def triple_bt : List Char := [backtick, backtick, backtick]

/-- The literal opening of a labelled fence, the regex prefix of
three backticks followed by the letters j s o n. -/
def fence_open : List Char := triple_bt ++ [ 'j', 's', 'o', 'n']

/-- Python regex `\s` on the ASCII range. -/
def is_ws (c : Char) : Bool :=
  c = ' ' || c = '\t' || c = '\n' || c = '\r' || c = Char.ofNat 11 || c = Char.ofNat 12

/-- Strip leading and trailing whitespace, as the greedy outer
whitespace groups of the fence regex do. -/
def trim_ws (l : List Char) : List Char :=
  ((l.dropWhile is_ws).reverse.dropWhile is_ws).reverse

/-- Split at the first occurrence of a three-backtick fence: the content
before it and the remainder after it. -/
def split_at_triple : List Char → Option (List Char × List Char)
  | [] => none
  | c :: t =>
    if triple_bt.isPrefixOf (c :: t) then some ([], (c :: t).drop 3)
    else match split_at_triple t with
      | some p => some (c :: p.1, p.2)
      | none => none

/-- The first regex extraction of `clean_json_response`:
`re.search` with the pattern of a fenced json block (non-greedy body,
whitespace-trimmed), returning the captured group: the first occurrence
of the labelled fence opening that is followed by a closing fence, with
the enclosed text trimmed. -/
def extract_fenced : List Char → Option (List Char)
  | [] => none
  | c :: t =>
    if fence_open.isPrefixOf (c :: t) then
      match split_at_triple ((c :: t).drop 7) with
      | some p => some (trim_ws p.1)
      | none => extract_fenced t
    else extract_fenced t

/-- Index of the last occurrence of a character. -/
def last_idx_of (c : Char) : List Char → Option Nat
  | [] => none
  | a :: t =>
    match last_idx_of c t with
    | some i => some (i + 1)
    | none => if a = c then some 0 else none

/-- The second regex extraction of `clean_json_response`: the greedy
bracket pattern, matching from the first opening square bracket to the
last closing square bracket of the whole text (if the latter comes
after the former). -/
def extract_bracket : List Char → Option (List Char)
  | [] => none
  | a :: t =>
    if a = '[' then
      match last_idx_of ']' t with
      | some j => some (a :: t.take (j + 1))
      | none => none
    else extract_bracket t

/-- The array-pattern attempt and the final empty-list fallback of
`clean_json_response`. -/
def clean_json_fallback (loads : String → Option PyVal) (text : String) : PyVal :=
  match extract_bracket text.data with
  | some br =>
    match loads (String.mk br) with
    | some v => v
    | none => .list []
  | none => .list []

/-- `clean_json_response`: parse the whole text, else the fenced json
block, else the bracketed substring, else return the empty list. The
Python function catches every `JSONDecodeError` and always returns,
which the total return type models. -/
def clean_json_response (loads : String → Option PyVal) (text : String) : PyVal :=
  match loads text with
  | some v => v
  | none =>
    match extract_fenced text.data with
    | some inner =>
      match loads (String.mk inner) with
      | some v => v
      | none => clean_json_fallback loads text
    | none => clean_json_fallback loads text

/-! ## AIAgent provider selection (`curate_news`, `evaluate_sentence`)

Each configured client is modelled by the outcome its (retried) call
would produce: `ok v` carries the `clean_json_response` of the response
text, `exn e` a raised exception (hard error or exhausted rate limit).
An unconfigured client (missing credential) is `none`. -/

inductive ProvResult where
  | ok (v : PyVal)
  | exn (e : String)

/-- The wrapper unwrapping in `curate_news`:
`if isinstance(result, dict) and 'articles' in result: return
result['articles']`, else the result unchanged. -/
def unwrap_articles (v : PyVal) : PyVal :=
  match v with
  | .dict kvs =>
    match kvs.lookup ("articles") with
    | some a => a
    | none => .dict kvs
  | _ => v

/-- `AIAgent.curate_news` provider selection: empty when no client is
configured; otherwise the fixed order xAI, Groq, Gemini over configured
clients, where the surrounding `try/except` turns any raised provider
error into an empty list (no fallthrough to a later provider). -/
def curate_news (xai groq gemini : Option ProvResult) : PyVal :=
  if xai.isNone && groq.isNone && gemini.isNone then .list []
  else
    match xai with
    | some (.ok v) => unwrap_articles v
    | some (.exn _) => .list []
    | none =>
      match groq with
      | some (.ok v) => unwrap_articles v
      | some (.exn _) => .list []
      | none =>
        match gemini with
        | some (.ok v) => v
        | some (.exn _) => .list []
        | none => .list []

def api_key_error : PyVal :=
  .dict [("is_correct", .bool false), ("feedback", .str ("API Key Error"))]

def invalid_response : PyVal :=
  .dict [("is_correct", .bool false), ("feedback", .str ("Invalid response"))]

def ai_error (e : String) : PyVal :=
  .dict [("is_correct", .bool false), ("feedback", .str ("AI Error: " ++ e))]

/-- The result shaping of `evaluate_sentence` on the xAI/Groq paths:
a dict is returned as is, a nonempty list yields its first element,
anything else the fixed invalid-response dict. -/
def shape_eval_result (v : PyVal) : PyVal :=
  match v with
  | .dict kvs => .dict kvs
  | .list (x :: _) => x
  | _ => invalid_response

/-- `AIAgent.evaluate_sentence` provider selection and error containment:
with no client configured it returns the fixed API-key-error dict; a
raised provider error is caught and becomes an `AI Error` dict; the
Gemini path returns the cleaned response unshaped. -/
def evaluate_sentence (xai groq gemini : Option ProvResult) : PyVal :=
  if xai.isNone && groq.isNone && gemini.isNone then api_key_error
  else
    match xai with
    | some (.ok v) => shape_eval_result v
    | some (.exn e) => ai_error e
    | none =>
      match groq with
      | some (.ok v) => shape_eval_result v
      | some (.exn e) => ai_error e
      | none =>
        match gemini with
        | some (.ok v) => v
        | some (.exn e) => ai_error e
        | none => api_key_error

/-! ## Curation candidate selection (`fetch_news`) -/

/-- A raw feed entry as used by `fetch_news`: `entry.title`, `entry.link`. -/
structure FeedEntry where
  title : String
  link : String
  deriving DecidableEq, Repr

/-- The dedup-then-cap step of `fetch_news` (news_scheduler.py and its
twin loops in app.py / telegram_bot.py): keep entries whose link is not
already in the store, then `candidates[:5]` before the provider call. -/
def select_candidates (db : NewsDB) (entries : List FeedEntry) : List FeedEntry :=
  (entries.filter (fun e => !check_url_exists db e.link)).take 5

/-- The `input_data` serialisation sent to the provider in `curate_news`:
title/link dicts of the candidate entries. -/
def curate_input (entries : List FeedEntry) : List PyVal :=
  entries.map (fun e => .dict [("title", .str e.title), ("link", .str e.link)])

/-! ## Scheduled delivery (`send_scheduled_news`) -/

/-- Result of one `send_scheduled_news` run: the store afterwards, the
ids of the items included in the sent message, and whether a message was
sent successfully. -/
structure SendOutcome where
  db : NewsDB
  message_ids : List Nat
  sent : Bool
  deriving DecidableEq, Repr

/-- `telegram_bot.send_scheduled_news`, with the outcome of the Telegram
send as a parameter: pull the unsent rows for today
(`get_unsent_news(date_filter=today)`), skip when empty, build the card
message over the first `max_count = 5` items
(`create_card_news_with_buttons`), and on send success mark every pulled
row (not only the ones in the message) as sent; on failure change
nothing. -/
def send_scheduled_news (db : NewsDB) (today : String) (send_success : Bool) : SendOutcome :=
  let news_list := get_unsent_news db none (some today)
  if news_list.isEmpty then ⟨db, [], false⟩
  else
    let message_ids := (news_list.take 5).map Row.id
    if send_success then
      ⟨mark_news_as_sent db (news_list.map Row.id), message_ids, true⟩
    else ⟨db, message_ids, false⟩

/-! ## Schedule configuration (settings + validation) -/

/-- Python `str.strip()` (ASCII whitespace). -/
def trim_py (s : String) : String := String.mk (trim_ws s.data)

/-- Python `s.split(",")`. -/
def split_comma : List Char → List (List Char)
  | [] => [[]]
  | c :: t =>
    let r := split_comma t
    if c = ',' then [] :: r
    else match r with
      | [] => [[c]]
      | h :: t2 => (c :: h) :: t2

/-- `DatabaseManager.set_news_schedule_times`: the stored value of the
`news_schedule_times` setting after saving (comma-joined, no
validation or length cap of its own). -/
def set_news_schedule_times (times : List String) : Option String :=
  some (String.intercalate "," times)

/-- `DatabaseManager.get_news_schedule_times`: split the stored setting
(default `06:00,12:00,18:00`) on commas, strip, drop blanks. -/
def get_news_schedule_times (stored : Option String) : List String :=
  (((stored.getD ("06:00,12:00,18:00")).data |> split_comma).map
    (fun l => trim_py (String.mk l))).filter (fun t => t ≠ "")

/-- The regex `\d{1,2}:\d{2}` anchored on both sides, from the schedule
save handler. -/
def time_format_ok : List Char → Bool
  | [a, b, c, d] => a.isDigit && b = ':' && c.isDigit && d.isDigit
  | [a, b, c, d, e] => a.isDigit && b.isDigit && c = ':' && d.isDigit && e.isDigit
  | _ => false

/-- `map(int, t.strip().split(':'))` on a string that passed the format
regex: the hour and minute values. -/
def parse_hm : List Char → Nat × Nat
  | [a, _, c, d] => (a.toNat - 48, 10 * (c.toNat - 48) + (d.toNat - 48))
  | [a, b, _, d, e] => (10 * (a.toNat - 48) + (b.toNat - 48), 10 * (d.toNat - 48) + (e.toNat - 48))
  | _ => (0, 0)

/-- The validation loop of the schedule save handler: skip blank fields,
reject a field failing the `HH:MM` regex or the hour/minute range check
(`st.error` + `return`, modelled as `Except.error` carrying the
offending field), collect the stripped times otherwise. -/
def collect_times : List String → Except String (List String)
  | [] => .ok []
  | f :: rest =>
    let t := trim_py f
    if t = "" then collect_times rest
    else if !time_format_ok t.data then .error f
    else
      let hm := parse_hm t.data
      if hm.1 ≤ 23 && hm.2 ≤ 59 then
        match collect_times rest with
        | .ok ts => .ok (t :: ts)
        | .error e => .error e
      else .error f

/-- The whole schedule-save button handler: validate the five input
fields; on a validation error or no time at all, persist nothing and
surface an error; otherwise persist via `set_news_schedule_times`.
Returns the stored setting afterwards and the error, if any. -/
def save_schedule (fields : List String) (stored : Option String) :
    Option String × Option String :=
  match collect_times fields with
  | .error e => (stored, some e)
  | .ok [] => (stored, some ("no time configured"))
  | .ok ts => (set_news_schedule_times ts, none)

/-! ## Concrete test fixtures

Concrete stores, items and provider stubs used to evaluate the verified
properties on explicit inputs. -/

/-- A store row with the given id, date and sent flag. -/
def mk_row (i : Nat) (d : String) (s : Nat) : Row :=
  { id := i, date := d, title := some ("t"), summary := "s", url := some (toString i),
    category := some ("Economy"), is_saved := 0, user_note := "", telegram_sent := s }

/-- A store holding six undelivered rows of the same date `d`
(ids 1..6, listed out of order). -/
def db_six : NewsDB :=
  ⟨[mk_row 3 ("d") 0, mk_row 1 ("d") 0, mk_row 6 ("d") 0,
    mk_row 2 ("d") 0, mk_row 5 ("d") 0, mk_row 4 ("d") 0], 7⟩

/-- A store with one old-dated and one today-dated undelivered row. -/
def db_two_days : NewsDB := ⟨[mk_row 1 ("c") 0, mk_row 2 ("d") 0], 3⟩

/-- A curated item carrying a link. -/
def item_w : NewsItem :=
  ⟨some ("t"), some (.strF ("s")), some ("http://a"), some ("Economy")⟩

/-- A store whose only row has url `a`. -/
def db_one : NewsDB :=
  ⟨[{ id := 1, date := "d", title := none, summary := "", url := some ("a"),
      category := none, is_saved := 0, user_note := "", telegram_sent := 0 }], 2⟩

def entry_a : FeedEntry := ⟨"ta", "a"⟩
def entry_b : FeedEntry := ⟨"tb", "b"⟩

/-- A provider result a fallback run would return. -/
def sample_articles : PyVal := .list [.dict [("title", .str ("news"))]]

/-- A json decoder stub knowing exactly the text of a one-element array. -/
def loads_stub (s : String) : Option PyVal :=
  if s = "[1]" then some (.list [.int 1]) else none

/-- A provider response wrapping that array in a labelled fence. -/
def fenced_text : String := "the array ```json\n[1]\n``` done"

/-- Six configured trigger times. -/
def six_times : List String :=
  ["06:00", "07:00", "08:00", "09:00", "10:00", "11:00"]

/-- A provider that rate-limits on the first request and then fails hard
(auth error) on the second. -/
def provider_429_then_401 : Nat → CallOutcome :=
  fun n => if n = 0 then .err ("429") else .err ("Error code: 401")

/-! ## Store bulk-insert lemmas (towards C1) -/

/-- The store extended by the row an item inserts. -/
def db_after_insert (today : String) (db : NewsDB) (item : NewsItem) : NewsDB :=
  ⟨db.rows ++ [new_row today db item], db.nextId + 1⟩

theorem save_news_bulk_cons_conflict (today : String) (db : NewsDB) (item : NewsItem)
    (rest : List NewsItem) (h : link_conflicts db item.link = true) :
    save_news_bulk today db (item :: rest) = save_news_bulk today db rest := by
  have hins : insert_news_item today db item = (db, false) := by
    rw [insert_news_item, if_pos h]
  show ((save_news_bulk today (insert_news_item today db item).1 rest).1,
    (if (insert_news_item today db item).2 then 1 else 0)
      + (save_news_bulk today (insert_news_item today db item).1 rest).2) = _
  rw [hins]
  simp

theorem save_news_bulk_cons_new (today : String) (db : NewsDB) (item : NewsItem)
    (rest : List NewsItem) (h : link_conflicts db item.link = false) :
    save_news_bulk today db (item :: rest)
      = ((save_news_bulk today (db_after_insert today db item) rest).1,
         1 + (save_news_bulk today (db_after_insert today db item) rest).2) := by
  have hins : insert_news_item today db item = (db_after_insert today db item, true) := by
    rw [insert_news_item, if_neg (by simp [h])]
    rfl
  show ((save_news_bulk today (insert_news_item today db item).1 rest).1,
    (if (insert_news_item today db item).2 then 1 else 0)
      + (save_news_bulk today (insert_news_item today db item).1 rest).2) = _
  rw [hins]
  simp

theorem save_news_bulk_rows : ∀ (items : List NewsItem) (db : NewsDB) (today : String),
    ∃ new, (save_news_bulk today db items).1.rows = db.rows ++ new ∧
      (save_news_bulk today db items).2 = new.length := by
  intro items
  induction items with
  | nil =>
    intro db today
    exact ⟨[], by simp [save_news_bulk], by simp [save_news_bulk]⟩
  | cons item rest ih =>
    intro db today
    by_cases h : link_conflicts db item.link
    · obtain ⟨new, h1, h2⟩ := ih db today
      rw [save_news_bulk_cons_conflict today db item rest h]
      exact ⟨new, h1, h2⟩
    · obtain ⟨new, h1, h2⟩ := ih (db_after_insert today db item) today
      rw [save_news_bulk_cons_new today db item rest (by simpa using h)]
      refine ⟨new_row today db item :: new, ?_, ?_⟩
      · rw [h1]
        simp [db_after_insert]
      · rw [h2]
        simp [Nat.add_comm]

theorem urls_distinct_insert (today : String) (db : NewsDB) (item : NewsItem)
    (h : UrlsDistinct db.rows) (hc : link_conflicts db item.link = false) :
    UrlsDistinct (db.rows ++ [new_row today db item]) := by
  rw [UrlsDistinct, List.pairwise_append]
  refine ⟨h, List.pairwise_singleton _ _, ?_⟩
  intro a ha b hb u hau
  rw [List.mem_singleton] at hb
  subst hb
  intro hbu
  have hlink : item.link = some u := hbu
  rw [hlink] at hc
  have hc2 : check_url_exists db u = false := hc
  rw [check_url_exists] at hc2
  have hne := List.any_eq_false.mp hc2 a ha
  rw [hau] at hne
  simp at hne

theorem save_news_bulk_urls_distinct : ∀ (items : List NewsItem) (db : NewsDB)
    (today : String), UrlsDistinct db.rows →
    UrlsDistinct (save_news_bulk today db items).1.rows := by
  intro items
  induction items with
  | nil => intro db today h; simpa [save_news_bulk] using h
  | cons item rest ih =>
    intro db today h
    by_cases hc : link_conflicts db item.link
    · rw [save_news_bulk_cons_conflict today db item rest hc]
      exact ih db today h
    · have hc2 : link_conflicts db item.link = false := by simpa using hc
      rw [save_news_bulk_cons_new today db item rest hc2]
      exact ih _ today (urls_distinct_insert today db item h hc2)

theorem check_url_mono (u : String) (items : List NewsItem) (db : NewsDB) (today : String)
    (h : check_url_exists db u = true) :
    check_url_exists (save_news_bulk today db items).1 u = true := by
  obtain ⟨new, h1, _⟩ := save_news_bulk_rows items db today
  rw [check_url_exists] at h ⊢
  rw [h1, List.any_append, h]
  rfl

theorem save_news_bulk_link_present : ∀ (items : List NewsItem) (db : NewsDB)
    (today : String) (i : NewsItem), i ∈ items → ∀ u, i.link = some u →
    check_url_exists (save_news_bulk today db items).1 u = true := by
  intro items
  induction items with
  | nil => intro db today i hi; cases hi
  | cons item rest ih =>
    intro db today i hi u hlink
    rcases List.mem_cons.mp hi with rfl | hi
    · by_cases h : link_conflicts db i.link
      · have hpres : check_url_exists db u = true := by
          rw [hlink] at h
          simpa [link_conflicts] using h
        rw [save_news_bulk_cons_conflict today db i rest h]
        exact check_url_mono u rest db today hpres
      · have hc2 : link_conflicts db i.link = false := by simpa using h
        have hpres : check_url_exists (db_after_insert today db i) u = true := by
          simp [db_after_insert, check_url_exists, new_row, hlink]
        rw [save_news_bulk_cons_new today db i rest hc2]
        exact check_url_mono u rest _ today hpres
    · by_cases h : link_conflicts db item.link
      · rw [save_news_bulk_cons_conflict today db item rest h]
        exact ih db today i hi u hlink
      · rw [save_news_bulk_cons_new today db item rest (by simpa using h)]
        exact ih _ today i hi u hlink

theorem save_news_bulk_all_conflict : ∀ (items : List NewsItem) (db : NewsDB)
    (today : String), (∀ i ∈ items, link_conflicts db i.link = true) →
    save_news_bulk today db items = (db, 0) := by
  intro items
  induction items with
  | nil => intro db today _; rfl
  | cons item rest ih =>
    intro db today h
    have hc : link_conflicts db item.link = true := h item (List.mem_cons_self _ _)
    rw [save_news_bulk_cons_conflict today db item rest hc]
    exact ih db today (fun i hi => h i (List.mem_cons_of_mem _ hi))

/-- C1: `save_news_bulk` keeps the url-uniqueness invariant of the news
table: starting from a store whose non-NULL urls are pairwise distinct it
never creates two rows with the same url, an item whose url is already
present is skipped with every pre-existing row preserved unchanged (the
result rows are the old rows plus the appended inserts), the returned
count equals the number of rows actually inserted, and a second run over
the same items (all carrying links) inserts nothing and returns 0. -/
theorem save_news_bulk_dedup (today today2 : String) (db : NewsDB) (items : List NewsItem)
    (h : UrlsDistinct db.rows) :
    ∃ new, (save_news_bulk today db items).1.rows = db.rows ++ new ∧
      (save_news_bulk today db items).2 = new.length ∧
      UrlsDistinct (save_news_bulk today db items).1.rows ∧
      ((∀ i ∈ items, i.link.isSome) →
        save_news_bulk today2 (save_news_bulk today db items).1 items
          = ((save_news_bulk today db items).1, 0)) := by
  obtain ⟨new, h1, h2⟩ := save_news_bulk_rows items db today
  refine ⟨new, h1, h2, save_news_bulk_urls_distinct items db today h, ?_⟩
  intro hlinks
  apply save_news_bulk_all_conflict
  intro i hi
  obtain ⟨u, hu⟩ := Option.isSome_iff_exists.mp (hlinks i hi)
  have hpres := save_news_bulk_link_present items db today i hi u hu
  simp [link_conflicts, hu, hpres]

/-- C1 witness: inserting one linked item into the empty store and
re-running the same insert: the second run is a no-op returning 0, and
the uniqueness invariant holds afterwards. -/
theorem save_news_bulk_dedup_witness :
    save_news_bulk ("e") (save_news_bulk ("d") ⟨[], 1⟩ [item_w, item_w]).1 [item_w, item_w]
      = ((save_news_bulk ("d") ⟨[], 1⟩ [item_w, item_w]).1, 0) ∧
    (save_news_bulk ("d") ⟨[], 1⟩ [item_w, item_w]).2 = 1 := by
  obtain ⟨new, h1, h2, h3, h4⟩ :=
    save_news_bulk_dedup ("d") ("e") ⟨[], 1⟩ [item_w, item_w] List.Pairwise.nil
  refine ⟨h4 (by decide), ?_⟩
  rw [h2]
  have : new.length = (save_news_bulk ("d") (⟨[], 1⟩ : NewsDB) [item_w, item_w]).2 := h2.symm
  rw [this]
  decide

/-! ## Undelivered-queue lemmas (towards C2, C3, C9) -/

theorem get_unsent_news_mem (db : NewsDB) (cat dat : Option String) :
    ∀ r ∈ get_unsent_news db cat dat, r ∈ db.rows ∧ unsent_matches cat dat r = true := by
  intro r hr
  have h1 : r ∈ List.insertionSort rowOrder (db.rows.filter (unsent_matches cat dat)) :=
    (List.take_sublist _ _).subset hr
  have h2 : r ∈ db.rows.filter (unsent_matches cat dat) :=
    (List.perm_insertionSort rowOrder _).mem_iff.mp h1
  exact List.mem_filter.mp h2

theorem get_unsent_news_sorted (db : NewsDB) (cat dat : Option String) :
    List.Sorted rowOrder (get_unsent_news db cat dat) :=
  List.Pairwise.sublist (List.take_sublist _ _)
    (List.sorted_insertionSort rowOrder _)

theorem get_unsent_news_len (db : NewsDB) (cat dat : Option String) :
    (get_unsent_news db cat dat).length ≤ 10 := by
  rw [get_unsent_news]
  exact List.length_take_le _ _

theorem unsent_matches_sent (cat dat : Option String) (r : Row)
    (h : unsent_matches cat dat r = true) : r.telegram_sent = 0 := by
  rw [unsent_matches, Bool.and_assoc] at h
  have := (Bool.and_eq_true _ _).mp h
  simpa using this.1

theorem unsent_matches_date (cat dat : Option String) (r : Row) (d : String)
    (hfd : filt_active dat = some d) (h : unsent_matches cat dat r = true) :
    r.date = d := by
  rw [unsent_matches, hfd] at h
  have := (Bool.and_eq_true _ _).mp h
  simpa using this.2

theorem unsent_matches_cat (cat dat : Option String) (r : Row) (c : String)
    (hfc : filt_active cat = some c) (h : unsent_matches cat dat r = true) :
    r.category = some c := by
  rw [unsent_matches, hfc] at h
  have := (Bool.and_eq_true _ _).mp h
  have h2 := (Bool.and_eq_true _ _).mp this.1
  simpa using h2.2

theorem mark_news_as_sent_nil (db : NewsDB) : mark_news_as_sent db [] = db := by
  rw [mark_news_as_sent]
  cases db with
  | mk rows nid => simp

theorem mark_news_as_sent_not_mem (db : NewsDB) (ids : List Nat) (r : Row)
    (hr : r ∈ db.rows) (hid : r.id ∉ ids) : r ∈ (mark_news_as_sent db ids).rows := by
  have hfun : (fun x : Row =>
      if ids.contains x.id then { x with telegram_sent := 1 } else x) r = r := by
    show (if ids.contains r.id then { r with telegram_sent := 1 } else r) = r
    rw [if_neg (by simpa using hid)]
  have hmem := List.mem_map_of_mem
    (fun x : Row => if ids.contains x.id then { x with telegram_sent := 1 } else x) hr
  rw [hfun] at hmem
  exact hmem

/-- C2 (corrected): what `send_scheduled_news` marks delivered. On send
success it marks every row pulled by `get_unsent_news` (up to 10 rows),
not only the at most 5 item ids included in the sent message; the
message ids are the first five pulled ids, hence a subset of the marked
ids. On send failure the store is unchanged, so the whole batch stays
undelivered for the next due evaluation. -/
theorem send_scheduled_news_marking (db : NewsDB) (today : String) :
    (send_scheduled_news db today true).db
      = mark_news_as_sent db ((get_unsent_news db none (some today)).map Row.id) ∧
    (send_scheduled_news db today true).message_ids
      = ((get_unsent_news db none (some today)).take 5).map Row.id ∧
    (send_scheduled_news db today false).db = db ∧
    (send_scheduled_news db today true).message_ids
      ⊆ (get_unsent_news db none (some today)).map Row.id := by
  by_cases h : (get_unsent_news db none (some today)).isEmpty
  · have he : get_unsent_news db none (some today) = [] := by
      simpa [List.isEmpty_iff] using h
    rw [send_scheduled_news, send_scheduled_news, if_pos h, if_pos h]
    refine ⟨?_, ?_, rfl, ?_⟩
    · rw [he]
      show db = mark_news_as_sent db []
      rw [mark_news_as_sent_nil]
    · rw [he]
      rfl
    · rw [he]
      simp
  · rw [send_scheduled_news, send_scheduled_news, if_neg h, if_neg h]
    refine ⟨rfl, rfl, rfl, ?_⟩
    exact List.map_subset Row.id (List.take_sublist _ _).subset

/-- C2 witness: on the six-row store, a failed send leaves the store
unchanged. -/
theorem send_scheduled_news_marking_witness :
    (send_scheduled_news db_six ("d") false).db = db_six :=
  (send_scheduled_news_marking db_six ("d")).2.2.1

/-- C2 counterexample: with six undelivered rows of today's date, a
successful run includes only ids 1..5 in the message but also marks the
row with id 6 as delivered, so the marked set is strictly larger than
the set of ids included in the sent message. -/
theorem send_scheduled_news_marks_unmessaged :
    (send_scheduled_news db_six ("d") true).message_ids = [1, 2, 3, 4, 5] ∧
    (6 : Nat) ∉ (send_scheduled_news db_six ("d") true).message_ids ∧
    { mk_row 6 ("d") 0 with telegram_sent := 1 }
      ∈ (send_scheduled_news db_six ("d") true).db.rows := by
  refine ⟨by decide, by decide, by decide⟩

/-- C3 (corrected): `get_unsent_news` as used by the scheduler returns at
most 10 rows (`LIMIT 10`, not the batch size 5 — the 5-cap is applied
later by the message builder), each taken from the store with
`telegram_sent = 0`, matching the active category/date filters, and
ordered ascending by date then id. -/
theorem get_unsent_news_spec (db : NewsDB) (cat dat : Option String) :
    (get_unsent_news db cat dat).length ≤ 10 ∧
    (∀ r ∈ get_unsent_news db cat dat, r ∈ db.rows ∧ r.telegram_sent = 0) ∧
    List.Sorted rowOrder (get_unsent_news db cat dat) ∧
    (∀ d, filt_active dat = some d → ∀ r ∈ get_unsent_news db cat dat, r.date = d) ∧
    (∀ c, filt_active cat = some c →
      ∀ r ∈ get_unsent_news db cat dat, r.category = some c) := by
  refine ⟨get_unsent_news_len db cat dat, ?_, get_unsent_news_sorted db cat dat, ?_, ?_⟩
  · intro r hr
    obtain ⟨h1, h2⟩ := get_unsent_news_mem db cat dat r hr
    exact ⟨h1, unsent_matches_sent cat dat r h2⟩
  · intro d hd r hr
    exact unsent_matches_date cat dat r d hd (get_unsent_news_mem db cat dat r hr).2
  · intro c hc r hr
    exact unsent_matches_cat cat dat r c hc (get_unsent_news_mem db cat dat r hr).2

/-- C3 witness: the spec evaluated on the six-row store. -/
theorem get_unsent_news_spec_witness :
    (get_unsent_news db_six none (some ("d"))).length ≤ 10 :=
  (get_unsent_news_spec db_six none (some ("d"))).1

/-- C3 counterexample: with six eligible rows the query returns six of
them, exceeding the claimed bound of 5; the batch size 5 only caps the
message, not this query. -/
theorem get_unsent_news_exceeds_batch :
    (get_unsent_news db_six none (some ("d"))).length = 6 ∧
    ¬ (get_unsent_news db_six none (some ("d"))).length ≤ 5 := by
  refine ⟨by decide, by decide⟩

/-- C9: the scheduled delivery path passes `date_filter = today` (the
current KST date) to `get_unsent_news`, so an undelivered row whose
collection date is earlier than today is never included in a message and
never marked delivered: whatever the send outcome, its id is absent from
the message ids and the row survives unchanged (still undelivered). -/
theorem send_scheduled_news_today_only (db : NewsDB) (today : String) (ok : Bool) (r : Row)
    (hids : db.rows.Pairwise (fun a b => a.id ≠ b.id))
    (h1 : today ≠ "") (h2 : today ≠ "All")
    (hr : r ∈ db.rows) (hsent : r.telegram_sent = 0)
    (hearlier : charListLt r.date.data today.data = true) :
    r.id ∉ (send_scheduled_news db today ok).message_ids ∧
    r ∈ (send_scheduled_news db today ok).db.rows ∧ r.telegram_sent = 0 := by
  have hne : r.date ≠ today := by
    intro he
    rw [he, charListLt_irrefl] at hearlier
    exact Bool.false_ne_true hearlier
  have hfd : filt_active (some today) = some today := by
    rw [filt_active, if_neg h1, if_neg h2]
  have hpull : ∀ p ∈ get_unsent_news db none (some today), p.date = today := fun p hp =>
    unsent_matches_date none (some today) p today hfd
      (get_unsent_news_mem db none (some today) p hp).2
  have hnotin : r.id ∉ (get_unsent_news db none (some today)).map Row.id := by
    intro hmem
    obtain ⟨p, hp, hpid⟩ := List.mem_map.mp hmem
    have hpdb : p ∈ db.rows := (get_unsent_news_mem db none (some today) p hp).1
    have hpr : p ≠ r := by
      intro he
      rw [he] at hp
      exact hne (hpull r hp)
    exact List.Pairwise.forall (fun x y hxy => Ne.symm hxy) hids hpdb hr hpr hpid
  have hsub : ((get_unsent_news db none (some today)).take 5).map Row.id
      ⊆ (get_unsent_news db none (some today)).map Row.id :=
    List.map_subset Row.id (List.take_sublist _ _).subset
  rw [send_scheduled_news]
  by_cases hemp : (get_unsent_news db none (some today)).isEmpty
  · rw [if_pos hemp]
    exact ⟨List.not_mem_nil _, hr, hsent⟩
  · rw [if_neg hemp]
    cases ok with
    | true =>
      refine ⟨fun hm => hnotin (hsub hm), ?_, hsent⟩
      exact mark_news_as_sent_not_mem db _ r hr hnotin
    | false =>
      exact ⟨fun hm => hnotin (hsub hm), hr, hsent⟩

/-- C9 witness: with one row dated `c` and one dated `d`, a successful
run for today `d` neither includes the old row's id in the message nor
changes that row. -/
theorem send_scheduled_news_today_only_witness :
    (1 : Nat) ∉ (send_scheduled_news db_two_days ("d") true).message_ids ∧
    mk_row 1 ("c") 0 ∈ (send_scheduled_news db_two_days ("d") true).db.rows ∧
    (mk_row 1 ("c") 0).telegram_sent = 0 :=
  send_scheduled_news_today_only db_two_days ("d") true (mk_row 1 ("c") 0)
    (by decide) (by decide) (by decide) (by decide) (by decide) (by decide)

/-! ## Provider retry lemmas (towards C4) -/

theorem retry_go_hard (is_rl : String → Bool) (p : Nat → CallOutcome) (j : Nat → ℚ)
    (a r : Nat) (e : String) (hp : p a = .err e) (hc : is_rl e = false) (hr : 0 < r) :
    retry_go is_rl p j a r = (.failure e, 1, []) := by
  cases r with
  | zero => omega
  | succ r => simp [retry_go, hp, hc]

theorem retry_go_all_rl (is_rl : String → Bool) (p : Nat → CallOutcome) (j : Nat → ℚ)
    (hall : ∀ i, ∃ e, p i = .err e ∧ is_rl e = true) :
    ∀ r a, 0 < r → (retry_go is_rl p j a r).2.1 = r ∧
      ∃ e, (retry_go is_rl p j a r).1 = .failure e ∧ is_rl e = true := by
  intro r
  induction r with
  | zero => intro a h; omega
  | succ r ih =>
    intro a _
    obtain ⟨e, hp, hrl⟩ := hall a
    by_cases hr : r = 0
    · subst hr
      exact ⟨by simp [retry_go, hp, hrl], e, by simp [retry_go, hp, hrl], hrl⟩
    · obtain ⟨hcount, e2, hres, hrl2⟩ := ih (a + 1) (by omega)
      refine ⟨?_, e2, ?_, hrl2⟩
      · simp [retry_go, hp, hrl, hr, hcount]
      · simp [retry_go, hp, hrl, hr, hres]

theorem retry_go_calls_le (is_rl : String → Bool) (p : Nat → CallOutcome) (j : Nat → ℚ) :
    ∀ r a, (retry_go is_rl p j a r).2.1 ≤ r := by
  intro r
  induction r with
  | zero => intro a; simp [retry_go]
  | succ r ih =>
    intro a
    cases hp : p a with
    | ok t => simp [retry_go, hp]
    | err e =>
      by_cases hrl : is_rl e
      · by_cases hr : r = 0
        · subst hr; simp [retry_go, hp, hrl]
        · have := ih (a + 1)
          simp only [retry_go, hp, hrl, hr, ite_true, ite_false]
          omega
      · simp [retry_go, hp, hrl]

theorem retry_go_rl_prefix_hard (is_rl : String → Bool) (p : Nat → CallOutcome)
    (j : Nat → ℚ) : ∀ k r a e, k < r →
    (∀ i, i < k → ∃ e2, p (a + i) = .err e2 ∧ is_rl e2 = true) →
    p (a + k) = .err e → is_rl e = false →
    (retry_go is_rl p j a r).1 = .failure e ∧
    (retry_go is_rl p j a r).2.1 = k + 1 ∧
    (retry_go is_rl p j a r).2.2.length = k := by
  intro k
  induction k with
  | zero =>
    intro r a e hk _ hp hc
    rw [Nat.add_zero] at hp
    rw [retry_go_hard is_rl p j a r e hp hc hk]
    exact ⟨rfl, rfl, rfl⟩
  | succ k ih =>
    intro r a e hk hall hp hc
    obtain ⟨e2, hp0, hrl0⟩ := hall 0 (Nat.succ_pos k)
    rw [Nat.add_zero] at hp0
    cases r with
    | zero => omega
    | succ r =>
      have hr : r ≠ 0 := by omega
      obtain ⟨h1, h2, h3⟩ := ih r (a + 1) e (by omega)
        (fun i hi => by
          have hx := hall (i + 1) (by omega)
          rwa [show a + (i + 1) = a + 1 + i from by omega] at hx)
        (by rwa [show a + 1 + k = a + (k + 1) from by omega])
        hc
      refine ⟨?_, ?_, ?_⟩
      · simp [retry_go, hp0, hrl0, hr, h1]
      · simp [retry_go, hp0, hrl0, hr, h2]
      · simp [retry_go, hp0, hrl0, hr, h3]

theorem list_get_congr {l m : List ℚ} (h : l = m) (k : Nat) (hk : k < l.length) :
    l.get ⟨k, hk⟩ = m.get ⟨k, h ▸ hk⟩ := by
  subst h
  rfl

theorem retry_go_waits (is_rl : String → Bool) (p : Nat → CallOutcome) (j : Nat → ℚ) :
    ∀ r a k (hk : k < (retry_go is_rl p j a r).2.2.length),
      (retry_go is_rl p j a r).2.2.get ⟨k, hk⟩ = 2 ^ (a + k + 1) + j (a + k) := by
  intro r
  induction r with
  | zero => intro a k hk; simp [retry_go] at hk
  | succ r ih =>
    intro a k hk
    cases hp : p a with
    | ok t => rw [retry_go, hp] at hk; simp at hk
    | err e =>
      by_cases hrl : is_rl e
      · by_cases hr : r = 0
        · subst hr
          rw [retry_go, hp] at hk
          simp [hrl] at hk
        · have hlist : (retry_go is_rl p j a (r + 1)).2.2
              = ((2 : ℚ) ^ (a + 1) + j a) :: (retry_go is_rl p j (a + 1) r).2.2 := by
            rw [retry_go, hp]
            simp [hrl, hr]
          have hk2 : k < (((2 : ℚ) ^ (a + 1) + j a) ::
              (retry_go is_rl p j (a + 1) r).2.2).length := hlist ▸ hk
          rcases k with _ | k
          · rw [list_get_congr hlist 0 hk]
            show (2 : ℚ) ^ (a + 1) + j a = 2 ^ (a + 0 + 1) + j (a + 0)
            simp
          · have hk3 : k < (retry_go is_rl p j (a + 1) r).2.2.length :=
              Nat.lt_of_succ_lt_succ (by simpa using hk2)
            rw [list_get_congr hlist (k + 1) hk]
            exact (ih (a + 1) k hk3).trans (by
              rw [show a + 1 + k + 1 = a + (k + 1) + 1 from by omega,
                show a + 1 + k = a + (k + 1) from by omega])
      · rw [retry_go, hp] at hk
        simp [hrl] at hk

/-- C4: the retry policy of the provider calls, for both
`_call_gemini_with_retry` and `_call_groq_with_retry` (jitter values
are those of `random.uniform(0, 1)`, so `0 ≤ j i < 1`): a non-rate-limit
error on the first request propagates immediately after exactly one
request and no sleep; a provider that rate-limits on every request is
called exactly the maximum 3 times and then fails with the rate-limit
error; no run issues more than 3 requests; the k-th sleep lasts
exactly `2 ^ (k + 1)` plus the jitter, hence lies in
`[2 ^ (k + 1), 2 ^ (k + 1) + 1)` — exponentially growing base-2 backoff
with jitter strictly below one time unit; and in general (final two
conjuncts) a non-rate-limit error at any reachable attempt `k` — that
is, after `k` rate-limited attempts — is never retried: the call
propagates that error at once, having issued exactly `k + 1` requests
and slept exactly `k` times. -/
theorem provider_retry_policy (p : Nat → CallOutcome) (j : Nat → ℚ)
    (hj : ∀ i, 0 ≤ j i ∧ j i < 1) :
    (∀ e, p 0 = .err e → is_rate_limit_gemini e = false →
      call_gemini_with_retry p j = (.failure e, 1, [])) ∧
    (∀ e, p 0 = .err e → is_rate_limit_groq e = false →
      call_groq_with_retry p j = (.failure e, 1, [])) ∧
    ((∀ i, ∃ e, p i = .err e ∧ is_rate_limit_gemini e = true) →
      (call_gemini_with_retry p j).2.1 = 3 ∧
      ∃ e, (call_gemini_with_retry p j).1 = .failure e ∧ is_rate_limit_gemini e = true) ∧
    ((∀ i, ∃ e, p i = .err e ∧ is_rate_limit_groq e = true) →
      (call_groq_with_retry p j).2.1 = 3 ∧
      ∃ e, (call_groq_with_retry p j).1 = .failure e ∧ is_rate_limit_groq e = true) ∧
    (call_gemini_with_retry p j).2.1 ≤ 3 ∧
    (call_groq_with_retry p j).2.1 ≤ 3 ∧
    (∀ k (hk : k < (call_gemini_with_retry p j).2.2.length),
      (call_gemini_with_retry p j).2.2.get ⟨k, hk⟩ = 2 ^ (k + 1) + j k ∧
      (2 : ℚ) ^ (k + 1) ≤ (call_gemini_with_retry p j).2.2.get ⟨k, hk⟩ ∧
      (call_gemini_with_retry p j).2.2.get ⟨k, hk⟩ < 2 ^ (k + 1) + 1) ∧
    (∀ k (hk : k < (call_groq_with_retry p j).2.2.length),
      (call_groq_with_retry p j).2.2.get ⟨k, hk⟩ = 2 ^ (k + 1) + j k ∧
      (2 : ℚ) ^ (k + 1) ≤ (call_groq_with_retry p j).2.2.get ⟨k, hk⟩ ∧
      (call_groq_with_retry p j).2.2.get ⟨k, hk⟩ < 2 ^ (k + 1) + 1) ∧
    (∀ k e, k < 3 →
      (∀ i, i < k → ∃ e2, p i = .err e2 ∧ is_rate_limit_gemini e2 = true) →
      p k = .err e → is_rate_limit_gemini e = false →
      (call_gemini_with_retry p j).1 = .failure e ∧
      (call_gemini_with_retry p j).2.1 = k + 1 ∧
      (call_gemini_with_retry p j).2.2.length = k) ∧
    (∀ k e, k < 3 →
      (∀ i, i < k → ∃ e2, p i = .err e2 ∧ is_rate_limit_groq e2 = true) →
      p k = .err e → is_rate_limit_groq e = false →
      (call_groq_with_retry p j).1 = .failure e ∧
      (call_groq_with_retry p j).2.1 = k + 1 ∧
      (call_groq_with_retry p j).2.2.length = k) := by
  refine ⟨?_, ?_, ?_, ?_, ?_, ?_, ?_, ?_, ?_, ?_⟩
  · intro e hp hc
    exact retry_go_hard is_rate_limit_gemini p j 0 3 e hp hc (by omega)
  · intro e hp hc
    exact retry_go_hard is_rate_limit_groq p j 0 3 e hp hc (by omega)
  · intro hall
    exact retry_go_all_rl is_rate_limit_gemini p j hall 3 0 (by omega)
  · intro hall
    exact retry_go_all_rl is_rate_limit_groq p j hall 3 0 (by omega)
  · exact retry_go_calls_le is_rate_limit_gemini p j 3 0
  · exact retry_go_calls_le is_rate_limit_groq p j 3 0
  · intro k hk
    have h := retry_go_waits is_rate_limit_gemini p j 3 0 k hk
    rw [Nat.zero_add] at h
    have h2 : (call_gemini_with_retry p j).2.2.get ⟨k, hk⟩ = 2 ^ (k + 1) + j k := h
    refine ⟨h2, ?_, ?_⟩
    · rw [h2]
      exact le_add_of_nonneg_right (hj k).1
    · rw [h2]
      exact add_lt_add_left (hj k).2 _
  · intro k hk
    have h := retry_go_waits is_rate_limit_groq p j 3 0 k hk
    rw [Nat.zero_add] at h
    have h2 : (call_groq_with_retry p j).2.2.get ⟨k, hk⟩ = 2 ^ (k + 1) + j k := h
    refine ⟨h2, ?_, ?_⟩
    · rw [h2]
      exact le_add_of_nonneg_right (hj k).1
    · rw [h2]
      exact add_lt_add_left (hj k).2 _
  · intro k e hk hall hp hc
    exact retry_go_rl_prefix_hard is_rate_limit_gemini p j k 3 0 e hk
      (fun i hi => by simpa using hall i hi) (by simpa using hp) hc
  · intro k e hk hall hp hc
    exact retry_go_rl_prefix_hard is_rate_limit_groq p j k 3 0 e hk
      (fun i hi => by simpa using hall i hi) (by simpa using hp) hc

/-- C4 witness: a provider answering HTTP 429 on every request is called
exactly three times; a provider answering 429 once and then an auth
error fails with the auth error after exactly two requests. -/
theorem provider_retry_policy_witness :
    (call_gemini_with_retry (fun _ => .err ("429")) (fun _ => (1 : ℚ) / 2)).2.1 = 3 ∧
    (call_gemini_with_retry provider_429_then_401 (fun _ => (1 : ℚ) / 2)).1
      = .failure ("Error code: 401") ∧
    (call_gemini_with_retry provider_429_then_401 (fun _ => (1 : ℚ) / 2)).2.1 = 2 := by
  refine ⟨?_, ?_, ?_⟩
  · exact ((provider_retry_policy (fun _ => .err ("429")) (fun _ => (1 : ℚ) / 2)
        (fun _ => by norm_num)).2.2.1
      (fun _ => ⟨"429", rfl, by decide⟩)).1
  · exact ((provider_retry_policy provider_429_then_401 (fun _ => (1 : ℚ) / 2)
        (fun _ => by norm_num)).2.2.2.2.2.2.2.2.1 1 ("Error code: 401") (by omega)
      (fun i hi => by
        have hi0 : i = 0 := by omega
        subst hi0
        exact ⟨"429", rfl, by decide⟩)
      rfl (by decide)).1
  · exact ((provider_retry_policy provider_429_then_401 (fun _ => (1 : ℚ) / 2)
        (fun _ => by norm_num)).2.2.2.2.2.2.2.2.1 1 ("Error code: 401") (by omega)
      (fun i hi => by
        have hi0 : i = 0 := by omega
        subst hi0
        exact ⟨"429", rfl, by decide⟩)
      rfl (by decide)).2.1

/-! ## JSON extraction lemmas (towards C5) -/

theorem isPrefixOf_append_self : ∀ (l x : List Char), l.isPrefixOf (l ++ x) = true := by
  intro l
  induction l with
  | nil => intro x; cases x <;> rfl
  | cons a t ih =>
    intro x
    simp only [List.cons_append, List.isPrefixOf, beq_self_eq_true, Bool.true_and]
    exact ih x

theorem split_at_triple_clean (body rest : List Char) (hbody : ∀ c ∈ body, c ≠ backtick) :
    split_at_triple (body ++ (triple_bt ++ rest)) = some (body, rest) := by
  induction body with
  | nil =>
    rw [List.nil_append]
    rw [show triple_bt ++ rest = backtick :: ([backtick, backtick] ++ rest) from rfl]
    rw [split_at_triple]
    have hcond : triple_bt.isPrefixOf (backtick :: ([backtick, backtick] ++ rest)) = true :=
      isPrefixOf_append_self triple_bt rest
    rw [if_pos hcond]
    rfl
  | cons c t ih =>
    have hc : c ≠ backtick := hbody c (List.mem_cons_self _ _)
    rw [List.cons_append, split_at_triple]
    rw [if_neg (by
      simp only [triple_bt, List.isPrefixOf, Bool.and_eq_true, beq_iff_eq]
      intro hcontra
      exact hc hcontra.1.symm)]
    rw [ih (fun x hx => hbody x (List.mem_cons_of_mem _ hx))]

theorem extract_fenced_skip (c : Char) (t : List Char) (hc : c ≠ backtick) :
    extract_fenced (c :: t) = extract_fenced t := by
  rw [extract_fenced]
  rw [if_neg (by
    simp only [fence_open, triple_bt, List.cons_append, List.isPrefixOf,
      Bool.and_eq_true, beq_iff_eq]
    intro hcontra
    exact hc hcontra.1.symm)]

theorem extract_fenced_found (body rest : List Char) (hbody : ∀ c ∈ body, c ≠ backtick) :
    extract_fenced (fence_open ++ (body ++ (triple_bt ++ rest))) = some (trim_ws body) := by
  rw [show fence_open ++ (body ++ (triple_bt ++ rest))
      = backtick :: ([backtick, backtick, 'j', 's', 'o', 'n']
          ++ (body ++ (triple_bt ++ rest))) from rfl]
  rw [extract_fenced]
  have hcond : fence_open.isPrefixOf (backtick :: ([backtick, backtick, 'j', 's', 'o', 'n']
      ++ (body ++ (triple_bt ++ rest)))) = true :=
    isPrefixOf_append_self fence_open (body ++ (triple_bt ++ rest))
  rw [if_pos hcond]
  rw [show List.drop 7 (backtick :: ([backtick, backtick, 'j', 's', 'o', 'n']
      ++ (body ++ (triple_bt ++ rest)))) = body ++ (triple_bt ++ rest) from rfl]
  rw [split_at_triple_clean body rest hbody]

theorem extract_fenced_with_prefix (pre body rest : List Char)
    (hpre : ∀ c ∈ pre, c ≠ backtick) (hbody : ∀ c ∈ body, c ≠ backtick) :
    extract_fenced (pre ++ (fence_open ++ (body ++ (triple_bt ++ rest))))
      = some (trim_ws body) := by
  induction pre with
  | nil => exact extract_fenced_found body rest hbody
  | cons c t ih =>
    rw [List.cons_append, extract_fenced_skip c _ (hpre c (List.mem_cons_self _ _))]
    exact ih (fun x hx => hpre x (List.mem_cons_of_mem _ hx))

theorem last_idx_of_none (c : Char) : ∀ post, (∀ x ∈ post, x ≠ c) →
    last_idx_of c post = none := by
  intro post
  induction post with
  | nil => intro _; rfl
  | cons a t ih =>
    intro h
    rw [last_idx_of, ih (fun x hx => h x (List.mem_cons_of_mem _ hx))]
    rw [if_neg (h a (List.mem_cons_self _ _))]

theorem last_idx_of_concat (c : Char) (mid post : List Char) (hpost : ∀ x ∈ post, x ≠ c) :
    last_idx_of c (mid ++ (c :: post)) = some mid.length := by
  induction mid with
  | nil =>
    rw [List.nil_append, last_idx_of, last_idx_of_none c post hpost, if_pos rfl]
    rfl
  | cons a t ih =>
    rw [List.cons_append, last_idx_of, ih]
    rfl

theorem extract_bracket_skip (c : Char) (t : List Char) (hc : c ≠ '[') :
    extract_bracket (c :: t) = extract_bracket t := by
  rw [extract_bracket, if_neg hc]

theorem extract_bracket_found (mid post : List Char) (hpost : ∀ x ∈ post, x ≠ ']') :
    extract_bracket ( '[' :: (mid ++ ( ']' :: post)))
      = some ( '[' :: (mid ++ [ ']' ])) := by
  rw [extract_bracket, if_pos rfl, last_idx_of_concat (']') mid post hpost]
  show some ( '[' :: (mid ++ ( ']' :: post)).take (mid.length + 1))
      = some ( '[' :: (mid ++ [ ']' ]))
  have htake : (mid ++ ( ']' :: post)).take (mid.length + 1) = mid ++ [ ']' ] := by
    rw [show mid ++ ( ']' :: post) = (mid ++ [ ']' ]) ++ post from by simp]
    rw [show mid.length + 1 = (mid ++ [ ']' ]).length from by simp]
    exact List.take_left _ _
  rw [htake]

theorem extract_bracket_with_prefix (pre mid post : List Char)
    (hpre : ∀ c ∈ pre, c ≠ '[') (hpost : ∀ x ∈ post, x ≠ ']') :
    extract_bracket (pre ++ ( '[' :: (mid ++ ( ']' :: post))))
      = some ( '[' :: (mid ++ [ ']' ])) := by
  induction pre with
  | nil => exact extract_bracket_found mid post hpost
  | cons c t ih =>
    rw [List.cons_append, extract_bracket_skip c _ (hpre c (List.mem_cons_self _ _))]
    exact ih (fun x hx => hpre x (List.mem_cons_of_mem _ hx))

/-- C5: the strategy order of `clean_json_response`, tried first success
wins: (1) the whole text parses, its value is returned; (2) otherwise a
fenced json block is extracted (for a text of shape
`pre ++ fence ++ body ++ fence ++ rest` with backtick-free pre and body,
the extraction yields exactly the trimmed body) and, parsing, its value
is returned; (3) otherwise the bracketed substring (from the first
opening to the last closing square bracket) is extracted and, parsing,
its value is returned; (4) if everything fails the function returns the
empty list. The Lean model is a total function: no input raises. -/
theorem clean_json_response_strategy (loads : String → Option PyVal) (text : String) :
    (∀ v, loads text = some v → clean_json_response loads text = v) ∧
    (∀ inner v, loads text = none → extract_fenced text.data = some inner →
      loads (String.mk inner) = some v → clean_json_response loads text = v) ∧
    (∀ pre body rest, (∀ c ∈ pre, c ≠ backtick) → (∀ c ∈ body, c ≠ backtick) →
      text.data = pre ++ (fence_open ++ (body ++ (triple_bt ++ rest))) →
      extract_fenced text.data = some (trim_ws body)) ∧
    (∀ br v, loads text = none →
      (∀ inner, extract_fenced text.data = some inner → loads (String.mk inner) = none) →
      extract_bracket text.data = some br → loads (String.mk br) = some v →
      clean_json_response loads text = v) ∧
    (∀ pre mid post, (∀ c ∈ pre, c ≠ '[') → (∀ c ∈ post, c ≠ ']') →
      text.data = pre ++ ( '[' :: (mid ++ ( ']' :: post))) →
      extract_bracket text.data = some ( '[' :: (mid ++ [ ']' ]))) ∧
    (loads text = none →
      (∀ inner, extract_fenced text.data = some inner → loads (String.mk inner) = none) →
      (∀ br, extract_bracket text.data = some br → loads (String.mk br) = none) →
      clean_json_response loads text = PyVal.list []) := by
  refine ⟨?_, ?_, ?_, ?_, ?_, ?_⟩
  · intro v hv
    simp only [clean_json_response, hv]
  · intro inner v hnone hf hv
    simp only [clean_json_response, hnone, hf, hv]
  · intro pre body rest hpre hbody htext
    rw [htext]
    exact extract_fenced_with_prefix pre body rest hpre hbody
  · intro br v hnone hfence hbr hv
    cases hf : extract_fenced text.data with
    | some inner =>
      simp only [clean_json_response, hnone, hf, hfence inner hf,
        clean_json_fallback, hbr, hv]
    | none =>
      simp only [clean_json_response, hnone, hf, clean_json_fallback, hbr, hv]
  · intro pre mid post hpre hpost htext
    rw [htext]
    exact extract_bracket_with_prefix pre mid post hpre hpost
  · intro hnone hfence hbrs
    cases hf : extract_fenced text.data with
    | some inner =>
      cases hb : extract_bracket text.data with
      | some br =>
        simp only [clean_json_response, hnone, hf, hfence inner hf,
          clean_json_fallback, hb, hbrs br hb]
      | none =>
        simp only [clean_json_response, hnone, hf, hfence inner hf,
          clean_json_fallback, hb]
    | none =>
      cases hb : extract_bracket text.data with
      | some br =>
        simp only [clean_json_response, hnone, hf, clean_json_fallback, hb, hbrs br hb]
      | none =>
        simp only [clean_json_response, hnone, hf, clean_json_fallback, hb]

/-- C5 witness: a response wrapping a one-element array in a labelled
fence, with a decoder that parses exactly that array: the extractor
returns the parsed array. -/
theorem clean_json_response_strategy_witness :
    clean_json_response loads_stub fenced_text = PyVal.list [PyVal.int 1] := by
  obtain ⟨h1, h2, h3, h4, h5, h6⟩ := clean_json_response_strategy loads_stub fenced_text
  exact h2 ("[1]").data (PyVal.list [PyVal.int 1]) rfl (by decide) rfl

/-- C6 (corrected): the provider chain of `curate_news`. With no client
configured the call returns an empty list; an unconfigured client is
skipped in the fixed order xAI, Groq, Gemini; the selected client's
successful result is returned (with the `articles` wrapper unwrapped on
the xAI/Groq paths); but a raised error of the selected client — hard or
rate-limit-exhausted alike — makes the whole call return an empty list:
there is no fallthrough to a later configured provider on failure,
because the `except` wraps the entire chain. -/
theorem curate_news_fallback :
    curate_news none none none = PyVal.list [] ∧
    (∀ v groq gemini, curate_news (some (.ok v)) groq gemini = unwrap_articles v) ∧
    (∀ e groq gemini, curate_news (some (.exn e)) groq gemini = PyVal.list []) ∧
    (∀ v gemini, curate_news none (some (.ok v)) gemini = unwrap_articles v) ∧
    (∀ e gemini, curate_news none (some (.exn e)) gemini = PyVal.list []) ∧
    (∀ v, curate_news none none (some (.ok v)) = v) ∧
    (∀ e, curate_news none none (some (.exn e)) = PyVal.list []) := by
  refine ⟨rfl, ?_, ?_, ?_, ?_, ?_, ?_⟩ <;> intros <;> rfl

/-- C6 counterexample: a hard xAI failure with a configured, succeeding
Groq client: `curate_news` returns the empty list instead of falling
through to Groq, whose result would have been the nonempty article
list. -/
theorem curate_news_no_fallthrough :
    curate_news (some (.exn ("Error code: 401 - invalid api key")))
      (some (.ok sample_articles)) none = PyVal.list [] ∧
    curate_news none (some (.ok sample_articles)) none = unwrap_articles sample_articles ∧
    unwrap_articles sample_articles ≠ PyVal.list [] := by
  refine ⟨rfl, rfl, ?_⟩
  rw [show unwrap_articles sample_articles = sample_articles from rfl, sample_articles]
  intro h
  simp at h

/-- C7: the dedup-before-call step shared by the three fetch loops: the
candidate set handed to the provider contains only fetched entries whose
link is not already in the store, capped at 5 per category per
invocation; in particular with two fetched entries of which one url is
already stored, exactly the one new entry is sent. -/
theorem curation_dedup_and_cap (db : NewsDB) (entries : List FeedEntry) :
    (select_candidates db entries).length ≤ 5 ∧
    (∀ e ∈ select_candidates db entries, check_url_exists db e.link = false ∧ e ∈ entries) ∧
    (∀ e1 e2 : FeedEntry, check_url_exists db e1.link = true →
      check_url_exists db e2.link = false →
      select_candidates db [e1, e2] = [e2] ∧
      curate_input (select_candidates db [e1, e2]) = curate_input [e2]) := by
  refine ⟨?_, ?_, ?_⟩
  · rw [select_candidates]
    exact List.length_take_le _ _
  · intro e he
    have h1 : e ∈ (entries.filter (fun x => !check_url_exists db x.link)) :=
      (List.take_sublist _ _).subset he
    obtain ⟨h2, h3⟩ := List.mem_filter.mp h1
    exact ⟨by simpa using h3, h2⟩
  · intro e1 e2 h1 h2
    have hsel : select_candidates db [e1, e2] = [e2] := by
      rw [select_candidates]
      rw [show List.filter (fun x => !check_url_exists db x.link) [e1, e2]
          = [e2] from by simp [List.filter, h1, h2]]
      rfl
    exact ⟨hsel, by rw [hsel]⟩

/-- C7 witness: with url `a` stored, of the two entries with links `a`
and `b` only the `b` entry reaches the provider. -/
theorem curation_dedup_and_cap_witness :
    select_candidates db_one [entry_a, entry_b] = [entry_b] :=
  ((curation_dedup_and_cap db_one []).2.2 entry_a entry_b (by decide) (by decide)).1

/-- C10: error containment of `evaluate_sentence` (the model is a total
function, so no input propagates an exception): with no client
configured it returns exactly the API-key-error dict, and a raised
provider error on whichever configured path is selected yields the
`AI Error` dict, whose `is_correct` field is `false` and whose
`feedback` field is a string. -/
theorem evaluate_sentence_error_containment :
    evaluate_sentence none none none = api_key_error ∧
    dictGet api_key_error ("is_correct") = some (.bool false) ∧
    dictGet api_key_error ("feedback") = some (.str ("API Key Error")) ∧
    (∀ e groq gemini, evaluate_sentence (some (.exn e)) groq gemini = ai_error e) ∧
    (∀ e gemini, evaluate_sentence none (some (.exn e)) gemini = ai_error e) ∧
    (∀ e, evaluate_sentence none none (some (.exn e)) = ai_error e) ∧
    (∀ e, dictGet (ai_error e) ("is_correct") = some (.bool false) ∧
      ∃ s, dictGet (ai_error e) ("feedback") = some (.str s)) := by
  refine ⟨rfl, rfl, rfl, ?_, ?_, ?_, ?_⟩
  · intro e groq gemini
    rfl
  · intro e gemini
    rfl
  · intro e
    rfl
  · intro e
    exact ⟨rfl, "AI Error: " ++ e, rfl⟩

/-! ## Schedule validation lemmas (towards C8) -/

theorem collect_times_error_on_hour25 : ∀ fields : List String,
    (∃ f ∈ fields, trim_py f = "25:00") →
    ∃ e, collect_times fields = .error e := by
  intro fields
  induction fields with
  | nil => rintro ⟨f, hf, _⟩; cases hf
  | cons g rest ih =>
    rintro ⟨f, hf, hbad⟩
    rcases List.mem_cons.mp hf with rfl | hf
    · refine ⟨f, ?_⟩
      rw [collect_times]
      rw [show trim_py f = "25:00" from hbad]
      rfl
    · by_cases h0 : trim_py g = ""
      · obtain ⟨e, he⟩ := ih ⟨f, hf, hbad⟩
        exact ⟨e, by rw [collect_times, if_pos h0, he]⟩
      · by_cases h1 : time_format_ok (trim_py g).data
        · by_cases h2 : (parse_hm (trim_py g).data).1 ≤ 23 && (parse_hm (trim_py g).data).2 ≤ 59
          · obtain ⟨e, he⟩ := ih ⟨f, hf, hbad⟩
            refine ⟨e, ?_⟩
            rw [collect_times, if_neg h0, if_neg (by simp [h1]), if_pos h2, he]
          · exact ⟨g, by rw [collect_times, if_neg h0, if_neg (by simp [h1]),
              if_neg (by simp [Bool.not_eq_true] at h2 ⊢; exact h2)]⟩
        · exact ⟨g, by rw [collect_times, if_neg h0,
            if_pos (by simp [Bool.not_eq_true] at h1 ⊢; exact h1)]⟩

theorem collect_times_length : ∀ (fields : List String) (ts : List String),
    collect_times fields = .ok ts → ts.length ≤ fields.length := by
  intro fields
  induction fields with
  | nil =>
    intro ts h
    cases h
    simp
  | cons g rest ih =>
    intro ts h
    by_cases h0 : trim_py g = ""
    · rw [collect_times, if_pos h0] at h
      exact (ih ts h).trans (by simp)
    · by_cases h1 : time_format_ok (trim_py g).data
      · by_cases h2 : (parse_hm (trim_py g).data).1 ≤ 23 && (parse_hm (trim_py g).data).2 ≤ 59
        · rw [collect_times, if_neg h0, if_neg (by simp [h1]), if_pos h2] at h
          cases hrest : collect_times rest with
          | ok ts2 =>
            rw [hrest] at h
            cases h
            have := ih ts2 hrest
            simp only [List.length_cons]
            omega
          | error e =>
            rw [hrest] at h
            cases h
        · rw [collect_times, if_neg h0, if_neg (by simp [h1]),
            if_neg (by simp [Bool.not_eq_true] at h2 ⊢; exact h2)] at h
          cases h
      · rw [collect_times, if_neg h0,
          if_pos (by simp [Bool.not_eq_true] at h1 ⊢; exact h1)] at h
        cases h

/-- C8 (corrected): schedule-save validation. A field stripping to
`25:00` makes the save handler abort with a validation error and leave
the stored setting unchanged; the single field `06:00` is accepted and
persisted; and each of the (exactly five) input fields of the form
contributes at most one time, so one save persists at most five times —
but no code path rejects a sixth time as such:
`set_news_schedule_times` itself persists any list uncapped. -/
theorem schedule_validation (fields : List String) (stored : Option String) :
    ((∃ f ∈ fields, trim_py f = "25:00") →
      (∃ e, collect_times fields = .error e) ∧
      (save_schedule fields stored).1 = stored ∧
      (save_schedule fields stored).2.isSome = true) ∧
    save_schedule ["06:00", "", "", "", ""] stored = (some ("06:00"), none) ∧
    (∀ ts, collect_times fields = .ok ts → ts.length ≤ fields.length) := by
  refine ⟨?_, rfl, collect_times_length fields⟩
  intro hbad
  obtain ⟨e, he⟩ := collect_times_error_on_hour25 fields hbad
  exact ⟨⟨e, he⟩, by rw [save_schedule, he], by rw [save_schedule, he]; rfl⟩

/-- C8 witness: the save handler invoked with `25:00` in the first field
persists nothing, and with `06:00` alone persists exactly that time. -/
theorem schedule_validation_witness :
    (save_schedule ["25:00", "", "", "", ""] none).1 = none ∧
    save_schedule ["06:00", "", "", "", ""] none = (some ("06:00"), none) := by
  obtain ⟨h1, h2, _⟩ := schedule_validation ["25:00", "", "", "", ""] none
  refine ⟨(h1 ⟨"25:00", by decide, by decide⟩).2.1, ?_⟩
  exact (schedule_validation ["06:00", "", "", "", ""] none).2.1

/-- C8 counterexample: nothing rejects a sixth configured time — saving
six times through `set_news_schedule_times` persists all six, and
`get_news_schedule_times` returns them. -/
theorem schedule_sixth_time_persisted :
    get_news_schedule_times (set_news_schedule_times six_times) = six_times ∧
    six_times.length = 6 := by
  refine ⟨by decide, rfl⟩

end NewsApp
